import Mathlib

/-!
Verification of the `atomig` crate (src/lib.rs): a generic atomic wrapper
`Atomic<T>` over an `Atom` pack/unpack capability, delegating to per-width
native atomic implementations, with bitwise fetch operations gated by the
`AtomicLogicImpl` sub-capability.

The embedding views a native atomic cell in its sequential (single-thread,
interference-free) semantics: the cell state is the inner value it holds,
and each operation is a function from the old state (plus arguments) to the
returned value and the new state, exactly mirroring the delegation code of
`impl<T: Atom> Atomic<T>` in src/lib.rs.
-/

namespace Atomig

/-- Memory ordering tokens (`std::sync::atomic::Ordering`); the crate never
inspects them, it passes them through unchanged. -/
inductive MemOrder where
  | relaxed
  | acquire
  | release
  | acqRel
  | seqCst
deriving DecidableEq, Repr

/-- State of one native atomic cell holding an inner value of type `α`
(`AtomicBool`, `AtomicU8`, ..., `AtomicPtr`), in sequential semantics. -/
structure NativeCell (α : Type) where
  val : α
deriving DecidableEq, Repr

/-- `AtomicImpl::new` (pass-through to `AtomicX::new`, src/lib.rs:146). -/
def NativeCell.new {α : Type} (v : α) : NativeCell α := ⟨v⟩

/-- `AtomicImpl::into_inner` (pass-through, src/lib.rs:154). -/
def NativeCell.into_inner {α : Type} (c : NativeCell α) : α := c.val

/-- `AtomicImpl::get_mut` (pass-through, src/lib.rs:150): exclusive-access
view of the stored value. -/
def NativeCell.get_mut {α : Type} (c : NativeCell α) : α := c.val

/-- `AtomicImpl::load` (pass-through, src/lib.rs:158). -/
def NativeCell.load {α : Type} (c : NativeCell α) (_order : MemOrder) : α :=
  c.val

/-- `AtomicImpl::store` (pass-through, src/lib.rs:162); returns the new
cell state. -/
def NativeCell.store {α : Type} (_c : NativeCell α) (v : α)
    (_order : MemOrder) : NativeCell α := ⟨v⟩

/-- `AtomicImpl::swap` (pass-through, src/lib.rs:166): returns the prior
value and the new cell state. -/
def NativeCell.swap {α : Type} (c : NativeCell α) (v : α)
    (_order : MemOrder) : α × NativeCell α := (c.val, ⟨v⟩)

/-- `AtomicImpl::compare_and_swap` (pass-through, src/lib.rs:170): always
returns the prior value; installs `new` iff the cell equals `current`. -/
def NativeCell.compare_and_swap {α : Type} [DecidableEq α]
    (c : NativeCell α) (current new : α) (_order : MemOrder) :
    α × NativeCell α :=
  if c.val = current then (c.val, ⟨new⟩) else (c.val, c)

/-- `AtomicImpl::compare_exchange` (pass-through, src/lib.rs:179): success
carries the prior (matching) value and installs `new`; failure carries the
actual value and leaves the cell unchanged. Never spuriously fails. -/
def NativeCell.compare_exchange {α : Type} [DecidableEq α]
    (c : NativeCell α) (current new : α) (_success _failure : MemOrder) :
    Except α α × NativeCell α :=
  if c.val = current then (Except.ok c.val, ⟨new⟩)
  else (Except.error c.val, c)

/-- `AtomicImpl::compare_exchange_weak` (pass-through, src/lib.rs:189): same
as the strong form, but may spuriously fail; the nondeterministic spurious
failure is made explicit as the oracle argument `spurious`. -/
def NativeCell.compare_exchange_weak {α : Type} [DecidableEq α]
    (c : NativeCell α) (current new : α) (spurious : Bool)
    (success failure : MemOrder) : Except α α × NativeCell α :=
  if spurious then (Except.error c.val, c)
  else NativeCell.compare_exchange c current new success failure

/-- The bitwise operations an `AtomicLogicImpl` backing type provides
(src/lib.rs:120-125). -/
structure AtomicLogicOps (α : Type) where
  land : α → α → α
  lnand : α → α → α
  lor : α → α → α
  lxor : α → α → α

/-- `AtomicLogicImpl::fetch_and` (pass-through, src/lib.rs:203). -/
def NativeCell.fetch_and {α : Type} (L : AtomicLogicOps α)
    (c : NativeCell α) (v : α) (_order : MemOrder) : α × NativeCell α :=
  (c.val, ⟨L.land c.val v⟩)

/-- `AtomicLogicImpl::fetch_nand` (pass-through, src/lib.rs:206). -/
def NativeCell.fetch_nand {α : Type} (L : AtomicLogicOps α)
    (c : NativeCell α) (v : α) (_order : MemOrder) : α × NativeCell α :=
  (c.val, ⟨L.lnand c.val v⟩)

/-- `AtomicLogicImpl::fetch_or` (pass-through, src/lib.rs:209). -/
def NativeCell.fetch_or {α : Type} (L : AtomicLogicOps α)
    (c : NativeCell α) (v : α) (_order : MemOrder) : α × NativeCell α :=
  (c.val, ⟨L.lor c.val v⟩)

/-- `AtomicLogicImpl::fetch_xor` (pass-through, src/lib.rs:212). -/
def NativeCell.fetch_xor {α : Type} (L : AtomicLogicOps α)
    (c : NativeCell α) (v : α) (_order : MemOrder) : α × NativeCell α :=
  (c.val, ⟨L.lxor c.val v⟩)

/-- The `Atom` trait (src/lib.rs:9-13): a domain type `T` backed by inner
representation `α`, with its encode (`pack`) and decode (`unpack`). -/
structure Atom (T : Type) (α : Type) where
  pack : T → α
  unpack : α → T

/-- `Atomic::new` (src/lib.rs:18): pack the initial value and build the
native cell. -/
def Atomic.new {T α : Type} (A : Atom T α) (v : T) : NativeCell α :=
  NativeCell.new (A.pack v)

/-- `Atomic::into_inner` (src/lib.rs:24): unwrap the cell and unpack. -/
def Atomic.into_inner {T α : Type} (A : Atom T α) (c : NativeCell α) : T :=
  A.unpack c.into_inner

/-- `Atomic::load` (src/lib.rs:27). -/
def Atomic.load {T α : Type} (A : Atom T α) (c : NativeCell α)
    (order : MemOrder) : T :=
  A.unpack (c.load order)

/-- `Atomic::store` (src/lib.rs:30); returns the new cell state. -/
def Atomic.store {T α : Type} (A : Atom T α) (c : NativeCell α) (v : T)
    (order : MemOrder) : NativeCell α :=
  c.store (A.pack v) order

/-- `Atomic::swap` (src/lib.rs:33). -/
def Atomic.swap {T α : Type} (A : Atom T α) (c : NativeCell α) (v : T)
    (order : MemOrder) : T × NativeCell α :=
  let r := c.swap (A.pack v) order
  (A.unpack r.1, r.2)

/-- `Atomic::compare_and_swap` (src/lib.rs:37). -/
def Atomic.compare_and_swap {T α : Type} [DecidableEq α] (A : Atom T α)
    (c : NativeCell α) (current new : T) (order : MemOrder) :
    T × NativeCell α :=
  let r := c.compare_and_swap (A.pack current) (A.pack new) order
  (A.unpack r.1, r.2)

/-- `Atomic::compare_exchange` (src/lib.rs:41): delegate, then map both
`Result` branches through `unpack`. -/
def Atomic.compare_exchange {T α : Type} [DecidableEq α] (A : Atom T α)
    (c : NativeCell α) (current new : T) (success failure : MemOrder) :
    Except T T × NativeCell α :=
  let r := c.compare_exchange (A.pack current) (A.pack new) success failure
  ((r.1.map A.unpack).mapError A.unpack, r.2)

/-- `Atomic::compare_exchange_weak` (src/lib.rs:53), with the spurious
failure oracle threaded through. -/
def Atomic.compare_exchange_weak {T α : Type} [DecidableEq α] (A : Atom T α)
    (c : NativeCell α) (current new : T) (spurious : Bool)
    (success failure : MemOrder) : Except T T × NativeCell α :=
  let r := c.compare_exchange_weak (A.pack current) (A.pack new) spurious
    success failure
  ((r.1.map A.unpack).mapError A.unpack, r.2)

/-- `Atomic::fetch_and` (src/lib.rs:70), available only with an
`AtomicLogicImpl` backing `L`. -/
def Atomic.fetch_and {T α : Type} (A : Atom T α) (L : AtomicLogicOps α)
    (c : NativeCell α) (v : T) (order : MemOrder) : T × NativeCell α :=
  let r := c.fetch_and L (A.pack v) order
  (A.unpack r.1, r.2)

/-- `Atomic::fetch_nand` (src/lib.rs:73). -/
def Atomic.fetch_nand {T α : Type} (A : Atom T α) (L : AtomicLogicOps α)
    (c : NativeCell α) (v : T) (order : MemOrder) : T × NativeCell α :=
  let r := c.fetch_nand L (A.pack v) order
  (A.unpack r.1, r.2)

/-- `Atomic::fetch_or` (src/lib.rs:76). -/
def Atomic.fetch_or {T α : Type} (A : Atom T α) (L : AtomicLogicOps α)
    (c : NativeCell α) (v : T) (order : MemOrder) : T × NativeCell α :=
  let r := c.fetch_or L (A.pack v) order
  (A.unpack r.1, r.2)

/-- `Atomic::fetch_xor` (src/lib.rs:79). -/
def Atomic.fetch_xor {T α : Type} (A : Atom T α) (L : AtomicLogicOps α)
    (c : NativeCell α) (v : T) (order : MemOrder) : T × NativeCell α :=
  let r := c.fetch_xor L (A.pack v) order
  (A.unpack r.1, r.2)

/-! Concrete instances defined by the crate (src/lib.rs:218-257): `bool`
and each integer width use the identity `pack`/`unpack`
(`id_pack_unpack!`). Integer widths are modelled by their bit patterns
(`Nat` below `2 ^ w`), which signed and unsigned widths share; the bitwise
operations are the machine ones, with NAND complementing within width. -/

/-- `impl Atom for bool` (src/lib.rs:249): identity pack/unpack. -/
def boolAtom : Atom Bool Bool := ⟨id, id⟩

/-- `impl AtomicLogicImpl for AtomicBool`: the four bitwise operations on
booleans. -/
def boolLogic : AtomicLogicOps Bool :=
  ⟨fun a b => a && b, fun a b => !(a && b), fun a b => a || b,
   fun a b => Bool.xor a b⟩

/-- `impl Atom for uN/iN` (src/lib.rs:250-257): identity pack/unpack on the
bit pattern. -/
def uintAtom : Atom Nat Nat := ⟨id, id⟩

/-- `impl AtomicLogicImpl for AtomicUN/AtomicIN`: machine bitwise ops on
`w`-bit patterns; NAND is AND followed by complement within the width. -/
def uintLogic (w : Nat) : AtomicLogicOps Nat :=
  ⟨fun a b => a &&& b, fun a b => (a &&& b) ^^^ (2 ^ w - 1),
   fun a b => a ||| b, fun a b => a ^^^ b⟩

/-- The native widths the crate provides implementations for
(src/lib.rs:218-257). -/
inductive NativeWidth where
  | ptr
  | b8
  | u8
  | i8
  | u16
  | i16
  | u32
  | i32
  | u64
  | i64
deriving DecidableEq, Repr

/-- Which widths the crate gives an `AtomicLogicImpl`: `impl_std_atomics!`
(src/lib.rs:243-245) includes it for every bool/integer width, while the
`AtomicPtr` impl (src/lib.rs:224-228) implements only `AtomicImpl`. -/
def hasLogicImpl : NativeWidth → Bool
  | NativeWidth.ptr => false
  | NativeWidth.b8 => true
  | NativeWidth.u8 => true
  | NativeWidth.i8 => true
  | NativeWidth.u16 => true
  | NativeWidth.i16 => true
  | NativeWidth.u32 => true
  | NativeWidth.i32 => true
  | NativeWidth.u64 => true
  | NativeWidth.i64 => true

/-- The operations of the `AtomicImpl` trait (src/lib.rs:86-118). -/
inductive NativeOp where
  | mkNew
  | get_mut
  | into_inner
  | load
  | store
  | swap
  | compare_and_swap
  | compare_exchange
  | compare_exchange_weak
deriving DecidableEq, Repr

/-- Which `AtomicImpl` operations `impl<T: Atom> Atomic<T>`
(src/lib.rs:17-64) exposes as value-typed wrapper methods: all of them
except `get_mut`, whose wrapper method is commented out (src/lib.rs:22). -/
def wrapperExposes : NativeOp → Bool
  | NativeOp.mkNew => true
  | NativeOp.get_mut => false
  | NativeOp.into_inner => true
  | NativeOp.load => true
  | NativeOp.store => true
  | NativeOp.swap => true
  | NativeOp.compare_and_swap => true
  | NativeOp.compare_exchange => true
  | NativeOp.compare_exchange_weak => true

/-- C1: for every `Atom` type whose pack/unpack round-trip at `v`,
`Atomic::new(v)` followed by `into_inner` returns exactly `v`, with no
intervening operations. -/
theorem new_into_inner_roundtrip {T α : Type} (A : Atom T α) (v : T)
    (h : A.unpack (A.pack v) = v) :
    Atomic.into_inner A (Atomic.new A v) = v := by
  simpa [Atomic.into_inner, Atomic.new, NativeCell.new,
    NativeCell.into_inner] using h

/-- Witness for C1 at the crate's `bool` instance with initial value
`true`. -/
theorem new_into_inner_roundtrip_witness :
    boolAtom.unpack (boolAtom.pack true) = true ∧
    Atomic.into_inner boolAtom (Atomic.new boolAtom true) = true :=
  ⟨rfl, new_into_inner_roundtrip boolAtom true rfl⟩

/-- C2: `Atomic::compare_exchange` returns `Ok` carrying the prior value
and installs `new` iff the cell equals `pack current`; otherwise it
returns `Err` carrying the actual current value and leaves the cell
unchanged (never spuriously fails).  And the boolean scenario: from
initial `false`, `compare_exchange(false, true, SeqCst, SeqCst)` succeeds
carrying `false`, a subsequent `load` returns `true`, and a second
identical call fails carrying `true` without changing the cell. -/
theorem compare_exchange_spec {T α : Type} [DecidableEq α] (A : Atom T α)
    (c : NativeCell α) (current new : T) (so fo : MemOrder) :
    (Atomic.compare_exchange A c current new so fo =
      if c.val = A.pack current then
        (Except.ok (A.unpack c.val), ⟨A.pack new⟩)
      else (Except.error (A.unpack c.val), c)) ∧
    (Atomic.compare_exchange boolAtom (Atomic.new boolAtom false) false true
        MemOrder.seqCst MemOrder.seqCst).1 = Except.ok false ∧
    Atomic.load boolAtom
      (Atomic.compare_exchange boolAtom (Atomic.new boolAtom false) false
        true MemOrder.seqCst MemOrder.seqCst).2 MemOrder.seqCst = true ∧
    (Atomic.compare_exchange boolAtom
      (Atomic.compare_exchange boolAtom (Atomic.new boolAtom false) false
        true MemOrder.seqCst MemOrder.seqCst).2 false true
      MemOrder.seqCst MemOrder.seqCst).1 = Except.error true ∧
    (Atomic.compare_exchange boolAtom
      (Atomic.compare_exchange boolAtom (Atomic.new boolAtom false) false
        true MemOrder.seqCst MemOrder.seqCst).2 false true
      MemOrder.seqCst MemOrder.seqCst).2 =
      (Atomic.compare_exchange boolAtom (Atomic.new boolAtom false) false
        true MemOrder.seqCst MemOrder.seqCst).2 := by
  refine ⟨?_, rfl, rfl, rfl, rfl⟩
  simp only [Atomic.compare_exchange, NativeCell.compare_exchange]
  split <;> rfl

/-- C3: `Atomic::compare_and_swap` always returns the value observed
immediately before the attempt (`unpack c`); the cell becomes `pack new`
iff it equalled `pack current`, and otherwise is unchanged. -/
theorem compare_and_swap_spec {T α : Type} [DecidableEq α] (A : Atom T α)
    (c : NativeCell α) (current new : T) (o : MemOrder) :
    Atomic.compare_and_swap A c current new o =
      (A.unpack c.val,
        if c.val = A.pack current then ⟨A.pack new⟩ else c) := by
  simp only [Atomic.compare_and_swap, NativeCell.compare_and_swap]
  split <;> rfl

/-- C4: when pack/unpack round-trip at `w`, a `load` immediately after
`store(w, _)` returns `w`, for every pair of ordering tokens. -/
theorem load_after_store {T α : Type} (A : Atom T α) (c : NativeCell α)
    (w : T) (o1 o2 : MemOrder) (h : A.unpack (A.pack w) = w) :
    Atomic.load A (Atomic.store A c w o1) o2 = w := by
  simpa [Atomic.load, Atomic.store, NativeCell.load, NativeCell.store]
    using h

/-- Witness for C4 at the crate's integer instances: store 7, load 7. -/
theorem load_after_store_witness :
    uintAtom.unpack (uintAtom.pack 7) = 7 ∧
    Atomic.load uintAtom
      (Atomic.store uintAtom (Atomic.new uintAtom 5) 7 MemOrder.seqCst)
      MemOrder.seqCst = 7 :=
  ⟨rfl, load_after_store uintAtom (Atomic.new uintAtom 5) 7
    MemOrder.seqCst MemOrder.seqCst rfl⟩

/-- C5: `Atomic::swap` returns the value a `load` immediately before the
call would have observed, and (with pack/unpack round-tripping at `new`) a
`load` after the call returns `new`. -/
theorem swap_spec {T α : Type} (A : Atom T α) (c : NativeCell α) (v : T)
    (o1 o2 o3 : MemOrder) (h : A.unpack (A.pack v) = v) :
    (Atomic.swap A c v o1).1 = Atomic.load A c o2 ∧
    Atomic.load A (Atomic.swap A c v o1).2 o3 = v := by
  refine ⟨rfl, ?_⟩
  simpa [Atomic.load, Atomic.swap, NativeCell.load, NativeCell.swap]
    using h

/-- Witness for C5 at the crate's `bool` instance. -/
theorem swap_spec_witness :
    boolAtom.unpack (boolAtom.pack true) = true ∧
    ((Atomic.swap boolAtom (Atomic.new boolAtom false) true
        MemOrder.seqCst).1 =
      Atomic.load boolAtom (Atomic.new boolAtom false) MemOrder.seqCst ∧
    Atomic.load boolAtom
      (Atomic.swap boolAtom (Atomic.new boolAtom false) true
        MemOrder.seqCst).2 MemOrder.seqCst = true) :=
  ⟨rfl, swap_spec boolAtom (Atomic.new boolAtom false) true
    MemOrder.seqCst MemOrder.seqCst MemOrder.seqCst rfl⟩

/-- C6: each of the four bitwise fetch operations returns the decoded
pre-update value and leaves the cell holding the corresponding bitwise
combination of the pre-update value and `pack m`; they are total
functions of the arguments.  And the integer scenario: from initial 5,
`fetch_or(3, SeqCst)` returns 5 and a subsequent `load` returns 7. -/
theorem fetch_ops_spec {T α : Type} (A : Atom T α) (L : AtomicLogicOps α)
    (c : NativeCell α) (m : T) (o : MemOrder) :
    Atomic.fetch_and A L c m o =
      (A.unpack c.val, ⟨L.land c.val (A.pack m)⟩) ∧
    Atomic.fetch_nand A L c m o =
      (A.unpack c.val, ⟨L.lnand c.val (A.pack m)⟩) ∧
    Atomic.fetch_or A L c m o =
      (A.unpack c.val, ⟨L.lor c.val (A.pack m)⟩) ∧
    Atomic.fetch_xor A L c m o =
      (A.unpack c.val, ⟨L.lxor c.val (A.pack m)⟩) ∧
    (Atomic.fetch_or uintAtom (uintLogic 8) (Atomic.new uintAtom 5) 3
      MemOrder.seqCst).1 = 5 ∧
    Atomic.load uintAtom
      (Atomic.fetch_or uintAtom (uintLogic 8) (Atomic.new uintAtom 5) 3
        MemOrder.seqCst).2 MemOrder.seqCst = 7 :=
  ⟨rfl, rfl, rfl, rfl, by decide, by decide⟩

/-- C7: applying `fetch_xor` twice with the same mask (no intervening
operations) restores the cell to its original state, at every `Atom` type
backed by a width carrying the bitwise capability: the `bool` width and
the `w`-bit integer widths. -/
theorem fetch_xor_involution {Tb Tn : Type} (Ab : Atom Tb Bool)
    (An : Atom Tn Nat) (w : Nat) (cb : NativeCell Bool)
    (cn : NativeCell Nat) (mb : Tb) (mn : Tn) (o1 o2 : MemOrder) :
    (Atomic.fetch_xor Ab boolLogic
      (Atomic.fetch_xor Ab boolLogic cb mb o1).2 mb o2).2 = cb ∧
    (Atomic.fetch_xor An (uintLogic w)
      (Atomic.fetch_xor An (uintLogic w) cn mn o1).2 mn o2).2 = cn := by
  constructor
  · cases cb with
    | mk b =>
      simp [Atomic.fetch_xor, NativeCell.fetch_xor, boolLogic,
        Bool.xor_assoc]
  · cases cn with
    | mk n =>
      simp only [Atomic.fetch_xor, NativeCell.fetch_xor, uintLogic]
      exact congrArg NativeCell.mk (Nat.xor_cancel_right (An.pack mn) n)

/-- C8: `Atomic::compare_exchange_weak` never spuriously succeeds: for
every value of the spurious-failure oracle, a returned `Ok` implies that
the cell's prior value equalled `pack current` and that `pack new` was
installed, and a returned `Err` implies the cell is unchanged. -/
theorem compare_exchange_weak_no_spurious_success {T α : Type}
    [DecidableEq α] (A : Atom T α) (c : NativeCell α) (current new : T)
    (sp : Bool) (so fo : MemOrder) :
    (∀ x, (Atomic.compare_exchange_weak A c current new sp so fo).1 =
        Except.ok x →
      c.val = A.pack current ∧
      (Atomic.compare_exchange_weak A c current new sp so fo).2 =
        ⟨A.pack new⟩) ∧
    (∀ y, (Atomic.compare_exchange_weak A c current new sp so fo).1 =
        Except.error y →
      (Atomic.compare_exchange_weak A c current new sp so fo).2 = c) := by
  constructor
  · intro x hx
    cases sp with
    | true =>
      simp [Atomic.compare_exchange_weak, NativeCell.compare_exchange_weak,
        Except.map, Except.mapError] at hx
    | false =>
      by_cases h : c.val = A.pack current
      · refine ⟨h, ?_⟩
        simp [Atomic.compare_exchange_weak,
          NativeCell.compare_exchange_weak, NativeCell.compare_exchange, h]
      · simp [Atomic.compare_exchange_weak,
          NativeCell.compare_exchange_weak, NativeCell.compare_exchange, h,
          Except.map, Except.mapError] at hx
  · intro y hy
    cases sp with
    | true =>
      simp [Atomic.compare_exchange_weak, NativeCell.compare_exchange_weak]
    | false =>
      by_cases h : c.val = A.pack current
      · simp [Atomic.compare_exchange_weak,
          NativeCell.compare_exchange_weak, NativeCell.compare_exchange, h,
          Except.map, Except.mapError] at hy
      · simp [Atomic.compare_exchange_weak,
          NativeCell.compare_exchange_weak, NativeCell.compare_exchange, h]

/-- Witness for C8: at the `bool` instance with cell `false`, oracle
`false`, the success branch fires and the theorem yields its
conclusion. -/
theorem compare_exchange_weak_no_spurious_success_witness :
    NativeCell.val (NativeCell.new (boolAtom.pack false)) =
      boolAtom.pack false ∧
    (Atomic.compare_exchange_weak boolAtom
      (NativeCell.new (boolAtom.pack false)) false true false
      MemOrder.seqCst MemOrder.seqCst).2 = ⟨boolAtom.pack true⟩ :=
  (compare_exchange_weak_no_spurious_success boolAtom
    (NativeCell.new (boolAtom.pack false)) false true false
    MemOrder.seqCst MemOrder.seqCst).1 false rfl

/-- C9: the pointer-shaped width is the only one for which the crate
defines no `AtomicLogicImpl`: the bitwise fetch sub-capability is
structurally absent for `AtomicPtr`, and present for every boolean and
integer width. -/
theorem ptr_width_no_logic_impl :
    hasLogicImpl NativeWidth.ptr = false ∧
    ∀ wd : NativeWidth,
      hasLogicImpl wd = true ∨ wd = NativeWidth.ptr := by
  refine ⟨rfl, ?_⟩
  intro wd
  cases wd
  case ptr => exact Or.inr rfl
  all_goals exact Or.inl rfl

/-- C10 counterexample: it is not the case that the wrapper exposes a
value-typed equivalent of every `AtomicImpl` operation: the `get_mut`
method is commented out of `impl<T: Atom> Atomic<T>` (src/lib.rs:22). -/
theorem wrapper_misses_get_mut :
    ¬ ∀ op : NativeOp, wrapperExposes op = true := by
  intro h
  exact absurd (h NativeOp.get_mut) (by decide)

/-- C10 (amended): for every `AtomicImpl` operation except
`get_mut`/`exclusive_mut`, the wrapper exposes a value-typed equivalent
that packs each domain argument, delegates to the corresponding native
operation with the ordering tokens passed through unchanged, and unpacks
the native result, including both branches of a compare-exchange
`Result`. -/
theorem wrapper_delegates_all_but_get_mut {T α : Type} [DecidableEq α]
    (A : Atom T α) (c : NativeCell α) (v current new : T) (sp : Bool)
    (o so fo : MemOrder) :
    (∀ op : NativeOp,
      op = NativeOp.get_mut ∨ wrapperExposes op = true) ∧
    Atomic.new A v = NativeCell.new (A.pack v) ∧
    Atomic.into_inner A c = A.unpack (NativeCell.into_inner c) ∧
    Atomic.load A c o = A.unpack (NativeCell.load c o) ∧
    Atomic.store A c v o = NativeCell.store c (A.pack v) o ∧
    (Atomic.swap A c v o).1 =
      A.unpack (NativeCell.swap c (A.pack v) o).1 ∧
    (Atomic.swap A c v o).2 = (NativeCell.swap c (A.pack v) o).2 ∧
    (Atomic.compare_and_swap A c current new o).1 =
      A.unpack
        (NativeCell.compare_and_swap c (A.pack current) (A.pack new) o).1 ∧
    (Atomic.compare_and_swap A c current new o).2 =
      (NativeCell.compare_and_swap c (A.pack current) (A.pack new) o).2 ∧
    (Atomic.compare_exchange A c current new so fo).1 =
      ((NativeCell.compare_exchange c (A.pack current) (A.pack new) so
        fo).1.map A.unpack).mapError A.unpack ∧
    (Atomic.compare_exchange A c current new so fo).2 =
      (NativeCell.compare_exchange c (A.pack current) (A.pack new) so
        fo).2 ∧
    (Atomic.compare_exchange_weak A c current new sp so fo).1 =
      ((NativeCell.compare_exchange_weak c (A.pack current) (A.pack new)
        sp so fo).1.map A.unpack).mapError A.unpack ∧
    (Atomic.compare_exchange_weak A c current new sp so fo).2 =
      (NativeCell.compare_exchange_weak c (A.pack current) (A.pack new)
        sp so fo).2 := by
  refine ⟨?_, rfl, rfl, rfl, rfl, rfl, rfl, rfl, rfl, rfl, rfl, rfl, rfl⟩
  intro op
  cases op
  case get_mut => exact Or.inl rfl
  all_goals exact Or.inr rfl

end Atomig
